import Mathlib

/-!
Verification of the exiftool `-stay_open` client (src/src/lib.rs).

Byte strings are modelled as `List Nat` (the byte values). Fallible Rust
code (panics, checked arithmetic) is modelled with `Except`/`Option`.
-/

/-- Bytes of an ASCII string literal. -/
def asciiBytes (s : String) : List Nat := s.data.map Char.toNat

/-- Function `is_whitespace` from src/src/lib.rs lines 10-12: tab or space only. -/
def is_whitespace (c : Nat) : Bool := c == 9 || c == 32

/-- Function `is_not_whitespace` from src/src/lib.rs lines 14-16. -/
def is_not_whitespace (c : Nat) : Bool := !is_whitespace c

/-- Rust `Iterator::rposition`: index of the last element satisfying `p`. -/
def rposition (p : Nat → Bool) : List Nat → Option Nat
  | [] => none
  | c :: cs =>
    match rposition p cs with
    | some i => some (i + 1)
    | none => if p c then some 0 else none

/-- Function `trim_end` from src/src/lib.rs lines 18-24: `v.truncate(first)` where
`first` is the index of the last non-whitespace byte (note: `truncate(first)`
keeps only the bytes strictly before index `first`), or truncate to empty
when every byte is tab/space. -/
def trim_end (v : List Nat) : List Nat :=
  match rposition is_not_whitespace v with
  | some first => v.take first
  | none => []

/-- Constant `SEQ_ERR_STATUS_DELIM` from src/src/lib.rs line 26: the byte of `=`. -/
def SEQ_ERR_STATUS_DELIM : List Nat := [61]

/-- Decimal digit bytes of `n`, most significant first (fuel-driven). -/
def decDigitsAux : Nat → Nat → List Nat
  | 0, _ => []
  | fuel + 1, n => if n = 0 then [] else decDigitsAux fuel (n / 10) ++ [n % 10 + 48]

/-- Bytes of the decimal representation of `n` (Rust `format!` of an integer). -/
def natBytes (n : Nat) : List Nat := if n = 0 then [48] else decDigitsAux n n

/-- The per-call numeric suffix from src/src/lib.rs line 78:
`let signal_num = 193280; // TODO: random #` — the argument models the call
index; the source binds the same constant on every call. -/
def call_signal_num (_call : Nat) : Nat := 193280

/-- Marker `seq_execute` from src/src/lib.rs line 81: `format!("-execute{}", n)`. -/
def seq_execute_of (n : Nat) : List Nat := asciiBytes "-execute" ++ natBytes n

/-- Marker `seq_ready` from src/src/lib.rs line 82: `format!("\x7bready{}\x7d", n)`. -/
def seq_ready_of (n : Nat) : List Nat := 123 :: (asciiBytes "ready" ++ natBytes n ++ [125])

/-- Marker `seq_err_post` from src/src/lib.rs line 83: `format!("post{}", n)`. -/
def seq_err_post_of (n : Nat) : List Nat := asciiBytes "post" ++ natBytes n

/-- Macro token `seq_err_status` from src/src/lib.rs line 85: the literal `$\x7bstatus\x7d`. -/
def seq_err_status : List Nat := [36, 123] ++ asciiBytes "status" ++ [125]

/-- The request encoder from src/src/lib.rs lines 87-101: push `-echo4`,
the delimiter-wrapped status macro plus err-post marker, and the execute
marker onto the parameter list, then emit each entry followed by one
line-feed byte. -/
def encode_message (params : List (List Nat)) (n : Nat) : List Nat :=
  let cmd_params := params ++
    [asciiBytes "-echo4",
     SEQ_ERR_STATUS_DELIM ++ seq_err_status ++ SEQ_ERR_STATUS_DELIM ++ seq_err_post_of n,
     seq_execute_of n]
  cmd_params.foldl (fun s p => s ++ p ++ [10]) []

/-- Substring containment, the semantics of bstr `find(needle).is_some()`:
`needle` occurs contiguously somewhere inside the haystack. -/
def containsSeq (needle : List Nat) : List Nat → Bool
  | [] => needle.isPrefixOf ([] : List Nat)
  | c :: cs => needle.isPrefixOf (c :: cs) || containsSeq needle cs

/-- The tail window scanned by `read_fd_ends_with`
(src/src/lib.rs line 39): the last `count` bytes of the accumulator,
where Rust `saturating_sub` is Lean's truncated `Nat` subtraction. -/
def tail_window (count : Nat) (out : List Nat) : List Nat :=
  out.drop (out.length - count)

/-- The loop condition of `read_fd_ends_with` (src/src/lib.rs lines 29,
39-42): the terminator occurs within the last `seq_ready.length + 2` bytes
of the accumulated output. -/
def tail_found (seq_ready out : List Nat) : Bool :=
  containsSeq seq_ready (tail_window (seq_ready.length + 2) out)

/-- One result of `fd.read`: either a chunk of bytes (possibly empty, for a
zero-byte read) or a read error. -/
inductive ReadResult where
  | chunk : List Nat → ReadResult
  | readErr : ReadResult
deriving DecidableEq

/-- The loop of `read_fd_ends_with` (src/src/lib.rs lines 28-50), run
against a finite script of read results. Each chunk is appended to the
accumulator; the loop returns the accumulator (paired with the unconsumed
script) when the terminator is found in the tail window or when a read
errors. `none` means the script was exhausted with the loop still reading. -/
def read_fd_loop (seq_ready output : List Nat) : List ReadResult → Option (List Nat × List ReadResult)
  | [] => none
  | ReadResult.readErr :: rest => some (output, rest)
  | ReadResult.chunk bs :: rest =>
    let out := output ++ bs
    if tail_found seq_ready out then some (out, rest) else read_fd_loop seq_ready out rest

/-- Statement that `read_fd_ends_with` never returns against the byte source `src`:
no finite number of reads makes the loop of src/src/lib.rs lines 32-48
exit. -/
def read_never_returns (seq_ready : List Nat) (src : Nat → ReadResult) : Prop :=
  ∀ n, read_fd_loop seq_ready [] ((List.range n).map src) = none

/-- Decode-phase failures of `execute`, each a Rust panic:
`arithmeticUnderflow` models the checked `usize` subtraction in
src/src/lib.rs lines 120-121; the other three model the panic at line 125
and the two `unwrap`s at lines 132 and 134. -/
inductive DecodeError where
  | arithmeticUnderflow
  | missingStatusDelim
  | noPriorDelim
  | malformedStatusCode
deriving DecidableEq

/-- The common first two decode steps of `execute` (src/src/lib.rs lines
118-121) for one buffer: `trim_end`, then `truncate(len - marker.len())`,
where the subtraction panics (debug overflow check) if the trimmed buffer
is shorter than the marker. -/
def strip_tail (marker raw : List Nat) : Except DecodeError (List Nat) :=
  let t := trim_end raw
  if t.length < marker.length then Except.error DecodeError.arithmeticUnderflow
  else Except.ok (t.take (t.length - marker.length))

/-- bstr `rfind`: the start index of the rightmost occurrence of `needle`. -/
def rfindSeq (needle : List Nat) : List Nat → Option Nat
  | [] => if needle.isPrefixOf ([] : List Nat) then some 0 else none
  | c :: cs =>
    match rfindSeq needle cs with
    | some i => some (i + 1)
    | none => if needle.isPrefixOf (c :: cs) then some 0 else none

/-- Rust `u8::from_str(std::str::from_utf8(bs)?)` (src/src/lib.rs line 134):
an optional leading `+`, then one or more ASCII decimal digits, value at
most 255; anything else (empty, stray bytes, overflow) is a parse failure. -/
def parseU8 (bs : List Nat) : Option Nat :=
  let ds := if bs.head? == some 43 then bs.tail else bs
  if ds.isEmpty then none
  else if ds.all (fun c => 48 ≤ c && c ≤ 57) then
    let v := ds.foldl (fun a c => a * 10 + (c - 48)) 0
    if v ≤ 255 then some v else none
  else none

/-- The status extraction of `execute` (src/src/lib.rs lines 123-137) on
the error buffer `e` (after marker stripping): require `e` to end with the
delimiter, find the previous delimiter occurrence, parse the bytes strictly
between the two occurrences as a `u8`, and truncate the error text at the
earlier occurrence. -/
def extract_status (e : List Nat) : Except DecodeError (Nat × List Nat) :=
  if SEQ_ERR_STATUS_DELIM.isSuffixOf e then
    let dl := SEQ_ERR_STATUS_DELIM.length
    match rfindSeq SEQ_ERR_STATUS_DELIM (e.take (e.length - dl)) with
    | none => Except.error DecodeError.noPriorDelim
    | some next_delim =>
      match parseU8 ((e.drop (next_delim + dl)).take (e.length - dl - (next_delim + dl))) with
      | none => Except.error DecodeError.malformedStatusCode
      | some code => Except.ok (code, e.take next_delim)
  else Except.error DecodeError.missingStatusDelim

/-- Decode of the raw stdout buffer (src/src/lib.rs lines 118, 120). -/
def decode_stdout (seq_ready raw : List Nat) : Except DecodeError (List Nat) :=
  strip_tail seq_ready raw

/-- Decode of the raw stderr buffer (src/src/lib.rs lines 119, 121,
123-137): strip the err-post marker, then extract the status code. -/
def decode_stderr (seq_err_post raw : List Nat) : Except DecodeError (Nat × List Nat) :=
  match strip_tail seq_err_post raw with
  | Except.error d => Except.error d
  | Except.ok e => extract_status e

/-- The whole decode phase of `execute` (src/src/lib.rs lines 118-143),
yielding the `ExifToolOutput` fields `(status, output, error)`. -/
def decode_response (seq_ready seq_err_post rawOut rawErr : List Nat) :
    Except DecodeError (Nat × List Nat × List Nat) :=
  match decode_stdout seq_ready rawOut with
  | Except.error d => Except.error d
  | Except.ok out =>
    match decode_stderr seq_err_post rawErr with
    | Except.error d => Except.error d
    | Except.ok (status, err) => Except.ok (status, out, err)

/-! ### Lemmas about `rposition` and `trim_end` -/

lemma rposition_append_singleton (p : Nat → Bool) (a : Nat) (l : List Nat) :
    rposition p (l ++ [a]) = if p a then some l.length else rposition p l := by
  induction l with
  | nil => simp [rposition]
  | cons c cs ih =>
    simp only [List.cons_append, rposition, List.append_eq, ih]
    by_cases h : p a = true
    · simp [h]
    · simp [h]

lemma rposition_lt_length {p : Nat → Bool} :
    ∀ {l : List Nat} {i : Nat}, rposition p l = some i → i < l.length := by
  intro l
  induction l with
  | nil => intro i h; simp [rposition] at h
  | cons c cs ih =>
    intro i h
    simp only [rposition] at h
    cases hr : rposition p cs with
    | some j =>
      rw [hr] at h
      obtain rfl : j + 1 = i := by simpa using h
      have := ih hr
      simp only [List.length_cons]
      omega
    | none =>
      rw [hr] at h
      by_cases hc : p c = true
      · simp only [hc, if_true, Option.some.injEq] at h
        simp only [List.length_cons]
        omega
      · simp [hc] at h

lemma trim_end_append_nonws {a : Nat} (l : List Nat) (h : is_whitespace a = false) :
    trim_end (l ++ [a]) = l := by
  unfold trim_end
  rw [rposition_append_singleton]
  simp [is_not_whitespace, h, List.take_left]

lemma trim_end_append_ws {a : Nat} (l : List Nat) (h : is_whitespace a = true) :
    trim_end (l ++ [a]) = trim_end l := by
  unfold trim_end
  rw [rposition_append_singleton]
  simp only [is_not_whitespace, h, Bool.not_true, if_false]
  cases hr : rposition is_not_whitespace l with
  | some i => exact List.take_append_of_le_length (Nat.le_of_lt (rposition_lt_length hr))
  | none => rfl

lemma trim_end_eq (v : List Nat) :
    trim_end v = ((v.reverse.dropWhile is_whitespace).drop 1).reverse := by
  induction v using List.reverseRecOn with
  | nil => rfl
  | append_singleton l a ih =>
    by_cases h : is_whitespace a = true
    · rw [trim_end_append_ws l h, ih]
      simp [List.reverse_append, List.dropWhile_cons, h]
    · rw [trim_end_append_nonws l (by simpa using h)]
      simp [List.reverse_append, List.dropWhile_cons, h]

/-! ### Claims C1, C2, C8: the trim/strip phase of the decoder -/

/-- Claim C1, counterexample: `trim_end` does NOT preserve the last
non-whitespace byte — on `"ab"` (no trailing tab/space at all) it drops the
`b`, and on `"ab\n"` it strips the newline byte, contradicting both the
"that byte and everything before it are preserved" and the "newline bytes
are not stripped" parts of the claim. -/
theorem claim_C1_counterexample :
    trim_end (asciiBytes "ab") = asciiBytes "a" ∧
    trim_end (asciiBytes "ab" ++ [10]) = asciiBytes "ab" ∧
    asciiBytes "a" ≠ asciiBytes "ab" := by decide

/-- Claim C1 (amended): the first decode step of `execute` removes the
maximal run of trailing tab/space bytes AND the first non-whitespace byte
found scanning from the end (so a trailing newline is removed); everything
strictly before that byte is preserved, and a buffer consisting only of
tabs/spaces becomes empty. Formally: `trim_end` is reverse, drop the
leading tab/space run, drop one more byte, reverse. -/
theorem claim_C1_trim_end (v : List Nat) :
    trim_end v = ((v.reverse.dropWhile is_whitespace).drop 1).reverse :=
  trim_end_eq v

/-- Claim C2, counterexample: on the error stream exactly
`b"warning text=5=post1234"` (no trailing newline) the decode phase panics
with a missing-status-delimiter protocol violation instead of yielding
status `5` and error `b"warning text"`: `trim_end` eats the final `4` of
the marker, so the marker-length truncation also eats the `=5=` field's
closing delimiter. -/
theorem claim_C2_counterexample :
    decode_stderr (seq_err_post_of 1234) (asciiBytes "warning text=5=post1234") =
      Except.error DecodeError.missingStatusDelim := by rfl

/-- Claim C2 (amended): on the newline-terminated error stream
`b"warning text=5=post1234\n"` (as the child actually emits) with err_post
marker `post1234` and delimiter `=`, the decode phase yields status `5`
and trimmed error `b"warning text"`. -/
theorem claim_C2_amended :
    decode_stderr (seq_err_post_of 1234) (asciiBytes "warning text=5=post1234" ++ [10]) =
      Except.ok (5, asciiBytes "warning text") := by rfl

lemma strip_tail_newline (w marker : List Nat) :
    strip_tail marker (w ++ marker ++ [10]) = Except.ok w := by
  have ht : trim_end (w ++ marker ++ [10]) = w ++ marker := by
    simpa [List.append_assoc] using
      trim_end_append_nonws (a := 10) (w ++ marker) (by decide)
  simp only [strip_tail, ht, List.length_append]
  rw [if_neg (by omega)]
  congr 1
  rw [Nat.add_sub_cancel]
  exact List.take_left w marker

/-- Claim C8, counterexample: a buffer whose content before the terminator
is entirely whitespace does NOT decode to an empty byte sequence — the two
spaces in front of the ready marker survive decoding, because trimming
runs before marker removal and only strips at the very tail. -/
theorem claim_C8_counterexample :
    decode_stdout (seq_ready_of 193280) ([32, 32] ++ seq_ready_of 193280 ++ [10]) =
      Except.ok [32, 32] ∧
    (Except.ok ([32, 32] : List Nat) : Except DecodeError (List Nat)) ≠ Except.ok [] :=
  ⟨by rfl, by simp⟩

/-- Claim C8 (amended): the trim-and-strip phase maps a newline-terminated
buffer `w ++ marker ++ "\n"` to exactly `w`: whitespace standing before
the terminator is preserved (not trimmed away), and the result is empty
precisely when nothing precedes the terminator. -/
theorem claim_C8_strip (w marker : List Nat) :
    strip_tail marker (w ++ marker ++ [10]) = Except.ok w :=
  strip_tail_newline w marker

/-! ### Lemmas about the read loop -/

lemma read_fd_loop_run (seq b : List Nat) (rest : List ReadResult) :
    ∀ (cs : List (List Nat)) (acc : List Nat),
      (∀ j, j ≤ cs.length → tail_found seq (acc ++ (cs.take j).flatten) = false) →
      tail_found seq (acc ++ cs.flatten ++ b) = true →
      read_fd_loop seq acc (cs.map ReadResult.chunk ++ ReadResult.chunk b :: rest) =
        some (acc ++ cs.flatten ++ b, rest) := by
  intro cs
  induction cs with
  | nil =>
    intro acc hfail hhit
    simp only [List.map_nil, List.nil_append, read_fd_loop]
    rw [if_pos (by simpa [List.append_assoc] using hhit)]
    simp
  | cons c cs ih =>
    intro acc hfail hhit
    simp only [List.map_cons, List.cons_append, read_fd_loop]
    have h1 : tail_found seq (acc ++ c) = false := by
      have := hfail 1 (by simp)
      simpa using this
    rw [if_neg (by simp [h1])]
    have hfail' : ∀ j, j ≤ cs.length → tail_found seq ((acc ++ c) ++ (cs.take j).flatten) = false := by
      intro j hj
      have := hfail (j + 1) (by simpa using hj)
      simpa [List.append_assoc] using this
    have hhit' : tail_found seq ((acc ++ c) ++ cs.flatten ++ b) = true := by
      simpa [List.append_assoc] using hhit
    have := ih (acc ++ c) hfail' hhit'
    simpa [List.append_assoc] using this

lemma read_loop_zero_chunks (seq : List Nat) (h : tail_found seq [] = false) :
    ∀ n, read_fd_loop seq [] (List.replicate n (ReadResult.chunk [])) = none := by
  intro n
  induction n with
  | zero => rfl
  | succ m ih =>
    simp only [List.replicate_succ, read_fd_loop, List.append_nil, h, if_false]
    exact ih

lemma read_loop_err_mem (seq : List Nat) :
    ∀ (script : List ReadResult) (acc : List Nat), ReadResult.readErr ∈ script →
      (read_fd_loop seq acc script).isSome = true := by
  intro script
  induction script with
  | nil => intro acc h; simp at h
  | cons r rest ih =>
    intro acc h
    cases r with
    | readErr => simp [read_fd_loop]
    | chunk bs =>
      simp only [read_fd_loop]
      by_cases hc : tail_found seq (acc ++ bs) = true
      · simp [hc]
      · rw [if_neg (by simp [hc])]
        rcases List.mem_cons.mp h with h' | h'
        · cases h'
        · exact ih (acc ++ bs) h'

lemma extract_status_ne_underflow (e : List Nat) :
    extract_status e ≠ Except.error DecodeError.arithmeticUnderflow := by
  unfold extract_status
  split
  · dsimp only
    split
    · simp
    · split
      · simp
      · simp
  · simp

/-! ### Claims C4, C5, C10: the byte-stream reader -/

/-- Claim C4: for every sequence of chunks delivered by the byte source,
`read_fd_ends_with` appends each chunk to the accumulator and returns the
full accumulated buffer as soon as the terminator occurs within the last
`len(terminator) + 2` bytes of the accumulator, leaving the remaining
reads unconsumed. `cs` are the chunks before the triggering chunk `b`;
`rest` is whatever the source would deliver afterwards. -/
theorem claim_C4_reader (seq : List Nat) (cs : List (List Nat)) (b : List Nat)
    (rest : List ReadResult)
    (hfail : ∀ j, j ≤ cs.length → tail_found seq ((cs.take j).flatten) = false)
    (hhit : tail_found seq (cs.flatten ++ b) = true) :
    read_fd_loop seq [] (cs.map ReadResult.chunk ++ ReadResult.chunk b :: rest) =
      some (cs.flatten ++ b, rest) := by
  have := read_fd_loop_run seq b rest cs []
    (by intro j hj; simpa using hfail j hj) (by simpa using hhit)
  simpa using this

/-- Claim C4, witness: with terminator `"\x7bready99\x7d"` and chunks
`b"hello "` then the terminator, the reader returns `b"hello \x7bready99\x7d"`
after the second read and performs no further reads (the extra chunk is
left unconsumed). -/
theorem claim_C4_witness :
    read_fd_loop (seq_ready_of 99) []
        ([asciiBytes "hello "].map ReadResult.chunk ++
          ReadResult.chunk (seq_ready_of 99) :: [ReadResult.chunk (asciiBytes "extra")]) =
      some ([asciiBytes "hello "].flatten ++ seq_ready_of 99,
        [ReadResult.chunk (asciiBytes "extra")]) :=
  claim_C4_reader (seq_ready_of 99) [asciiBytes "hello "] (seq_ready_of 99)
    [ReadResult.chunk (asciiBytes "extra")] (by decide) (by decide)

/-- Claim C5, counterexample: `read_fd_ends_with` does NOT terminate for
every byte source. Against a source that forever delivers zero-byte reads
(as a pipe at end-of-file does) while the terminator never appears, the
loop of src/src/lib.rs lines 32-48 sleeps and retries forever: no finite
number of reads makes it return. -/
theorem claim_C5_counterexample :
    read_never_returns (seq_ready_of 193280) (fun _ => ReadResult.chunk []) := by
  intro n
  have hsrc : (List.range n).map (fun _ => ReadResult.chunk ([] : List Nat)) =
      List.replicate n (ReadResult.chunk []) := by
    rw [List.map_const']
    rw [List.length_range]
  rw [hsrc]
  exact read_loop_zero_chunks _ (by decide) n

/-- Claim C5 (amended): the read loop returns when a read errors (or when
the terminator appears in the tail window); it is not guaranteed to
terminate otherwise. Formally: any read script containing a read error
makes the loop return. -/
theorem claim_C5_err_terminates (seq : List Nat) (script : List ReadResult)
    (h : ReadResult.readErr ∈ script) :
    (read_fd_loop seq [] script).isSome = true :=
  read_loop_err_mem seq script [] h

/-- Claim C5, witness for the amended theorem: a script consisting of one
erroring read makes the loop return at once. -/
theorem claim_C5_witness :
    (read_fd_loop (seq_ready_of 193280) [] [ReadResult.readErr]).isSome = true :=
  claim_C5_err_terminates (seq_ready_of 193280) [ReadResult.readErr] (by decide)

/-- Claim C10: a read error makes `read_fd_ends_with` return the truncated
buffer with no error signal, and the decode phase then subtracts the marker
length without checking the trimmed buffer is long enough: whenever the
trimmed buffer is shorter than its marker, `execute` fails with an
arithmetic panic (not a protocol-violation error), on the stdout side and
on the stderr side alike. -/
theorem claim_C10_underflow (seq_ready seq_err_post b : List Nat) (rest : List ReadResult)
    (hread : tail_found seq_ready b = false)
    (hout : (trim_end b).length < seq_ready.length)
    (herr : (trim_end b).length < seq_err_post.length) :
    read_fd_loop seq_ready [] (ReadResult.chunk b :: ReadResult.readErr :: rest) =
      some (b, rest)
    ∧ decode_stdout seq_ready b = Except.error DecodeError.arithmeticUnderflow
    ∧ decode_stderr seq_err_post b = Except.error DecodeError.arithmeticUnderflow := by
  refine ⟨?_, ?_, ?_⟩
  · simp only [read_fd_loop, List.nil_append]
    rw [if_neg (by simp [hread])]
  · unfold decode_stdout strip_tail
    rw [if_pos hout]
  · unfold decode_stderr strip_tail
    rw [if_pos herr]

/-- Claim C10, witness: the one-byte buffer `b"x"` trims to the empty
buffer, which is shorter than both markers of call suffix 193280; the
reader hands it over after an erroring read, and both decodes fail with
the arithmetic underflow panic. -/
theorem claim_C10_witness :
    read_fd_loop (seq_ready_of 193280) []
        [ReadResult.chunk (asciiBytes "x"), ReadResult.readErr] = some (asciiBytes "x", [])
    ∧ decode_stdout (seq_ready_of 193280) (asciiBytes "x") =
        Except.error DecodeError.arithmeticUnderflow
    ∧ decode_stderr (seq_err_post_of 193280) (asciiBytes "x") =
        Except.error DecodeError.arithmeticUnderflow :=
  claim_C10_underflow (seq_ready_of 193280) (seq_err_post_of 193280) (asciiBytes "x") []
    (by decide) (by decide) (by decide)

/-! ### Claim C9: the request encoder -/

lemma foldl_emit (ps : List (List Nat)) :
    ∀ acc : List Nat,
      ps.foldl (fun s p => s ++ p ++ [10]) acc = acc ++ (ps.map (fun p => p ++ [10])).flatten := by
  induction ps with
  | nil => intro acc; simp
  | cons p ps ih =>
    intro acc
    simp only [List.foldl_cons, ih, List.map_cons, List.flatten_cons]
    simp [List.append_assoc]

/-- Claim C9: for every parameter list, the request message is exactly the
original parameters, each followed by one line-feed byte, then the line
`-echo4`, then the line `=` + `$\x7bstatus\x7d` + `=` + err_post marker,
then the execute-marker line, every line terminated by a single line-feed. -/
theorem claim_C9_encode (params : List (List Nat)) (n : Nat) :
    encode_message params n =
      (params.map (fun p => p ++ [10])).flatten
        ++ (asciiBytes "-echo4" ++ [10])
        ++ (SEQ_ERR_STATUS_DELIM ++ seq_err_status ++ SEQ_ERR_STATUS_DELIM
              ++ seq_err_post_of n ++ [10])
        ++ (seq_execute_of n ++ [10]) := by
  unfold encode_message
  rw [foldl_emit]
  simp [List.append_assoc]

/-! ### Claim C6: protocol-violation handling of the status field -/

/-- Claim C6: whenever the trimmed error buffer does not end with the
status delimiter `=`, or no prior delimiter occurrence exists before the
final one, or the bytes strictly between the two delimiter occurrences do
not parse as an unsigned 8-bit decimal integer, the status extraction of
`execute` fails fatally with a protocol violation and never returns a
status (in particular never a silent status 0). -/
theorem claim_C6_protocol (e : List Nat)
    (h : SEQ_ERR_STATUS_DELIM.isSuffixOf e = false
       ∨ rfindSeq SEQ_ERR_STATUS_DELIM (e.take (e.length - SEQ_ERR_STATUS_DELIM.length)) = none
       ∨ ∃ i, rfindSeq SEQ_ERR_STATUS_DELIM
              (e.take (e.length - SEQ_ERR_STATUS_DELIM.length)) = some i ∧
            parseU8 ((e.drop (i + SEQ_ERR_STATUS_DELIM.length)).take
              (e.length - SEQ_ERR_STATUS_DELIM.length - (i + SEQ_ERR_STATUS_DELIM.length))) =
              none) :
    (∃ d, extract_status e = Except.error d) ∧ ∀ p, extract_status e ≠ Except.ok p := by
  have main : ∃ d, extract_status e = Except.error d := by
    by_cases hs : SEQ_ERR_STATUS_DELIM.isSuffixOf e = true
    · rcases h with h | h | h
      · rw [hs] at h; cases h
      · refine ⟨DecodeError.noPriorDelim, ?_⟩
        unfold extract_status
        rw [if_pos hs]
        dsimp only
        rw [h]
      · obtain ⟨i, hi, hp⟩ := h
        refine ⟨DecodeError.malformedStatusCode, ?_⟩
        unfold extract_status
        rw [if_pos hs]
        dsimp only
        rw [hi]
        dsimp only
        rw [hp]
    · refine ⟨DecodeError.missingStatusDelim, ?_⟩
      unfold extract_status
      rw [if_neg hs]
  refine ⟨main, ?_⟩
  intro p hp
  obtain ⟨d, hd⟩ := main
  rw [hd] at hp
  cases hp

/-- Claim C6, witness: the trimmed error buffer `b"warning text=5"` does
not end with `=`, and the status extraction indeed fails fatally. -/
theorem claim_C6_witness :
    (∃ d, extract_status (asciiBytes "warning text=5") = Except.error d) ∧
    ∀ p, extract_status (asciiBytes "warning text=5") ≠ Except.ok p :=
  claim_C6_protocol (asciiBytes "warning text=5") (Or.inl (by decide))

/-! ### Claim C7: the per-call sentinel suffix -/

/-- Claim C7, code bug: the numeric suffix is NOT randomized per call.
Line 78 of src/src/lib.rs binds the same constant `193280` on every call
(the comment `TODO: random #` records the unimplemented intent), so every
two calls use identical ready, err-post and execute markers. -/
theorem claim_C7_constant_suffix (call1 call2 : Nat) :
    call_signal_num call1 = call_signal_num call2 ∧
    seq_ready_of (call_signal_num call1) = seq_ready_of (call_signal_num call2) ∧
    seq_err_post_of (call_signal_num call1) = seq_err_post_of (call_signal_num call2) ∧
    seq_execute_of (call_signal_num call1) = seq_execute_of (call_signal_num call2) :=
  ⟨rfl, rfl, rfl, rfl⟩

/-! ### Claim C3: encode/decode round trip -/

lemma singleton_isSuffixOf_append (d : Nat) (X : List Nat) :
    [d].isSuffixOf (X ++ [d]) = true := by
  simp [List.isSuffixOf, List.reverse_append, List.isPrefixOf]

lemma rfindSeq_not_mem {d : Nat} : ∀ {b : List Nat}, d ∉ b → rfindSeq [d] b = none := by
  intro b
  induction b with
  | nil => intro h; rfl
  | cons c cs ih =>
    intro h
    have hd : ¬ d = c := fun hdc => h (by rw [hdc]; exact List.mem_cons_self c cs)
    have hcs : d ∉ cs := fun hm => h (List.mem_cons_of_mem c hm)
    simp only [rfindSeq, ih hcs]
    simp [List.isPrefixOf, beq_iff_eq, hd]

lemma rfindSeq_append_cons (a : List Nat) {d : Nat} {b : List Nat} (h : d ∉ b) :
    rfindSeq [d] (a ++ d :: b) = some a.length := by
  induction a with
  | nil =>
    simp only [List.nil_append, rfindSeq, rfindSeq_not_mem h]
    simp [List.isPrefixOf]
  | cons c cs ih =>
    simp only [List.cons_append, rfindSeq, List.append_eq, ih]
    simp

set_option maxRecDepth 4000 in
lemma natBytes_parse : ∀ s, s < 256 → parseU8 (natBytes s) = some s ∧ (61 : Nat) ∉ natBytes s := by
  decide

lemma extract_status_wrapped (err sb : List Nat) (status : Nat)
    (hparse : parseU8 sb = some status) (h61 : (61 : Nat) ∉ sb) :
    extract_status (err ++ [61] ++ sb ++ [61]) = Except.ok (status, err) := by
  have hsuf : SEQ_ERR_STATUS_DELIM.isSuffixOf (err ++ [61] ++ sb ++ [61]) = true :=
    singleton_isSuffixOf_append 61 (err ++ [61] ++ sb)
  unfold extract_status
  rw [if_pos hsuf]
  dsimp only
  simp only [SEQ_ERR_STATUS_DELIM, List.length_singleton]
  have h1 : (err ++ [61] ++ sb ++ [61]).take ((err ++ [61] ++ sb ++ [61]).length - 1) =
      err ++ [61] ++ sb :=
    List.take_left' (by simp [List.length_append])
  rw [h1]
  have h2 : rfindSeq [61] (err ++ [61] ++ sb) = some err.length := by
    have hassoc : err ++ [61] ++ sb = err ++ 61 :: sb := by
      simp [List.append_assoc]
    rw [hassoc]
    exact rfindSeq_append_cons err h61
  rw [h2]
  dsimp only
  have h3 : (err ++ [61] ++ sb ++ [61]).drop (err.length + 1) = sb ++ [61] := by
    have hassoc : err ++ [61] ++ sb ++ [61] = (err ++ [61]) ++ (sb ++ [61]) := by
      simp [List.append_assoc]
    rw [hassoc]
    exact List.drop_left' (by simp)
  rw [h3]
  have h4 : (sb ++ [61]).take ((err ++ [61] ++ sb ++ [61]).length - 1 - (err.length + 1)) =
      sb :=
    List.take_left' (by simp [List.length_append]; omega)
  rw [h4, hparse]
  have h5 : (err ++ [61] ++ sb ++ [61]).take err.length = err := by
    have hassoc : err ++ [61] ++ sb ++ [61] = err ++ ([61] ++ sb ++ [61]) := by
      simp [List.append_assoc]
    rw [hassoc]
    exact List.take_left' rfl
  rw [h5]

/-- Claim C3, counterexample: building the response streams EXACTLY as the
claim states — output followed by the ready marker, error followed by
`=` + status + `=` + err_post — does NOT round-trip. With output `b"A"`,
error `b"E"` and status `5`, the decode phase fails with a
missing-status-delimiter protocol violation (and the decoded output would
have been empty, not `b"A"`): `trim_end` eats the final byte of each
marker, so the marker-length truncation then eats one byte too many. -/
theorem claim_C3_counterexample :
    decode_response (seq_ready_of 193280) (seq_err_post_of 193280)
        (asciiBytes "A" ++ seq_ready_of 193280)
        (asciiBytes "E" ++ SEQ_ERR_STATUS_DELIM ++ natBytes 5 ++ SEQ_ERR_STATUS_DELIM
          ++ seq_err_post_of 193280) =
      Except.error DecodeError.missingStatusDelim ∧
    (Except.error DecodeError.missingStatusDelim :
        Except DecodeError (Nat × List Nat × List Nat)) ≠
      Except.ok (5, asciiBytes "A", asciiBytes "E") :=
  ⟨by rfl, by simp⟩

/-- Claim C3 (amended): the round trip holds once each response stream is
line-feed-terminated, as the child process actually terminates its marker
lines. For every intended output text and error text free of embedded
markers and line-feeds and every status below 256, decoding the response
built with the matching sentinels of call `c` — output, ready marker,
newline on stdout; error, `=` + decimal status + `=` + err_post marker,
newline on stderr — recovers the original output, error and status. -/
theorem claim_C3_roundtrip (c : Nat) (out err : List Nat) (status : Nat)
    (hstatus : status < 256)
    (hout_lf : (10 : Nat) ∉ out) (herr_lf : (10 : Nat) ∉ err)
    (hout_marker : containsSeq (seq_ready_of (call_signal_num c)) out = false)
    (herr_marker : containsSeq (seq_err_post_of (call_signal_num c)) err = false) :
    decode_response (seq_ready_of (call_signal_num c)) (seq_err_post_of (call_signal_num c))
        (out ++ seq_ready_of (call_signal_num c) ++ [10])
        (err ++ SEQ_ERR_STATUS_DELIM ++ natBytes status ++ SEQ_ERR_STATUS_DELIM
          ++ seq_err_post_of (call_signal_num c) ++ [10]) =
      Except.ok (status, out, err) := by
  obtain ⟨hparse, h61⟩ := natBytes_parse status hstatus
  have hOut : decode_stdout (seq_ready_of (call_signal_num c))
      (out ++ seq_ready_of (call_signal_num c) ++ [10]) = Except.ok out :=
    strip_tail_newline out _
  have hErrStrip : strip_tail (seq_err_post_of (call_signal_num c))
      (err ++ SEQ_ERR_STATUS_DELIM ++ natBytes status ++ SEQ_ERR_STATUS_DELIM
        ++ seq_err_post_of (call_signal_num c) ++ [10]) =
      Except.ok (err ++ SEQ_ERR_STATUS_DELIM ++ natBytes status ++ SEQ_ERR_STATUS_DELIM) :=
    strip_tail_newline _ _
  have hExtract : extract_status
      (err ++ SEQ_ERR_STATUS_DELIM ++ natBytes status ++ SEQ_ERR_STATUS_DELIM) =
      Except.ok (status, err) :=
    extract_status_wrapped err (natBytes status) status hparse h61
  unfold decode_response decode_stderr
  rw [hOut, hErrStrip]
  dsimp only
  rw [hExtract]

/-- Claim C3, witness: the round trip at output `b"A"`, error `b"E"`,
status `5`, with the sentinels of call 0. -/
theorem claim_C3_witness :
    decode_response (seq_ready_of (call_signal_num 0)) (seq_err_post_of (call_signal_num 0))
        (asciiBytes "A" ++ seq_ready_of (call_signal_num 0) ++ [10])
        (asciiBytes "E" ++ SEQ_ERR_STATUS_DELIM ++ natBytes 5 ++ SEQ_ERR_STATUS_DELIM
          ++ seq_err_post_of (call_signal_num 0) ++ [10]) =
      Except.ok (5, asciiBytes "A", asciiBytes "E") :=
  claim_C3_roundtrip 0 (asciiBytes "A") (asciiBytes "E") 5 (by decide) (by decide)
    (by decide) (by decide) (by decide)
